import Mathlib

/-!
Shallow embedding of the RSS ingestion pipeline
(`main.py`, `rss_fetcher.py`, `gcs_utils.py`, `rag_ingest.py`,
`vector_search_ingest.py`).

External calls (HTTP fetches, GCS uploads, the RAG import REST calls, the
embedding and vector-upsert services) are modelled by explicit environments
recording, for each call, whether it succeeds (after its own retry wrapper
has run) and what value it returns.  The Python control flow of
`process_feed`, `main` and `RAGIngester.ingest_to_rag` is translated
branch by branch.
-/

namespace NvidiaBlogMcp

/-- One parsed feed entry, as produced by `RSSFetcher.parse_rss`:
keys `title`, `link`, `guid`, `pubDate`, `description`, each defaulting
to the empty string. -/
structure Item where
  title : String
  link : String
  guid : String
  pubDate : String
  description : String
deriving DecidableEq, Repr

/-- The deduplication identity used both by `RSSFetcher.get_new_items`
and by the `item_id` generation in `process_feed`:
`item.get("guid") or item.get("link", "")` (the `or` falls through on an
empty string). -/
def rawId (it : Item) : String :=
  if it.guid = "" then it.link else it.guid

/-- `RSSFetcher.get_new_items`: keep the items whose identity is non-empty
and not in the processed-ids set. -/
def getNewItems (items : List Item) (processed : List String) : List Item :=
  items.filter (fun it => decide (rawId it ≠ "" ∧ rawId it ∉ processed))

/-- Python's `str.strip()`: drop leading and trailing whitespace.
Written structurally over the character list so that concrete runs
evaluate inside the kernel. -/
def pyStrip (s : String) : String :=
  String.mk
    (((s.data.dropWhile Char.isWhitespace).reverse.dropWhile
        Char.isWhitespace).reverse)

/-- Python's `\w` character class, restricted to ASCII as the feeds use:
alphanumerics and the underscore. -/
def pyWordChar (c : Char) : Bool :=
  c.isAlphanum || c = '_'

/-- A character the regex `[^\w\-_\.]` of `process_feed` leaves in place:
word characters plus dash and dot. -/
def keepChar (c : Char) : Bool :=
  pyWordChar c || c = '-' || c = '.'

/-- `re.sub(r'[^\w\-_\.]', '_', raw_id)[:200]`: replace every character
outside the kept class by an underscore, then truncate to 200 characters. -/
def sanitizeId (s : String) : String :=
  String.mk ((s.data.map (fun c => if keepChar c then c else '_')).take 200)

/-- The timestamp fallback `f"item_{int(datetime.utcnow().timestamp())}"`,
with the current epoch second passed in explicitly. -/
def fallbackId (ts : Nat) : String :=
  "item_" ++ toString ts

/-- The `item_id` computation of `process_feed` (main.py lines 111-118),
as a function of the raw identity and of the epoch second observed when
the fallback fires. -/
def itemIdFromRaw (raw : String) (ts : Nat) : String :=
  if raw ≠ "" then
    let s := sanitizeId raw
    if s = "" ∨ s = "_" then fallbackId ts else s
  else fallbackId ts

/-- `item_id` for a feed item: the raw identity is `guid or link`. -/
def itemIdOf (it : Item) (ts : Nat) : String :=
  itemIdFromRaw (rawId it) ts

/-- Environment for the external calls made while processing one item.
A `Bool` field is `false` when the corresponding call raises even after
its adapter's own retry wrapper; an `Option` field is `none` in that case
and otherwise carries the returned value. -/
structure ItemEnv where
  /-- `gcs.upload_file` of the raw item XML succeeds. -/
  xmlSave : Bool
  /-- `rss_fetcher.fetch_html` result. -/
  fetchHtml : Option String
  /-- `gcs.upload_file` of the raw HTML succeeds. -/
  htmlSave : Bool
  /-- `html_cleaner.clean_html` result. -/
  clean : Option String
  /-- `gcs.upload_file` of the cleaned text succeeds. -/
  textSave : Bool
  /-- `rag_ingester.ingest_to_rag` returns without raising. -/
  ragIngest : Bool
  /-- `vector_ingester.embed_text` result. -/
  embed : Option (List Int)
  /-- `vector_ingester.upsert_vector` succeeds. -/
  upsert : Bool

/-- Outcome of the per-item body of `process_feed`: the item is appended to
`new_processed_ids` (`marked`), skipped by a `continue` without an append
(`skipped`: missing link or short cleaned text), or an exception was caught
at the item boundary (`errored`). -/
inductive ItemResult where
  | marked
  | skipped
  | errored
deriving DecidableEq, Repr

/-- The per-item body of `process_feed` (main.py lines 108-186), returning
the item outcome together with the list of successfully written GCS object
paths, in write order. -/
def processItem (minLen : Nat) (folder : String) (it : Item) (e : ItemEnv)
    (ts : Nat) : ItemResult × List String :=
  let iid := itemIdOf it ts
  let xmlPath := folder ++ "/raw_xml/" ++ iid ++ ".xml"
  if e.xmlSave = false then (.errored, []) else
  if it.link = "" then (.skipped, [xmlPath]) else
  match e.fetchHtml with
  | none => (.errored, [xmlPath])
  | some _ =>
    let htmlPath := folder ++ "/raw_html/" ++ iid ++ ".html"
    if e.htmlSave = false then (.errored, [xmlPath]) else
    match e.clean with
    | none => (.errored, [xmlPath, htmlPath])
    | some t =>
      if t = "" ∨ (pyStrip t).length < minLen then (.skipped, [xmlPath, htmlPath]) else
      let textPath := folder ++ "/clean/" ++ iid ++ ".txt"
      if e.textSave = false then (.errored, [xmlPath, htmlPath]) else
      if e.ragIngest = false then (.errored, [xmlPath, htmlPath, textPath]) else
      match e.embed with
      | none => (.errored, [xmlPath, htmlPath, textPath])
      | some _ =>
        if e.upsert = false then (.errored, [xmlPath, htmlPath, textPath]) else
        (.marked, [xmlPath, htmlPath, textPath])

/-- Accumulated state of the item loop of `process_feed`:
`processed_count`, `error_count`, `new_processed_ids`, and the trace of
successful GCS writes. -/
structure LoopOut where
  processed : Nat
  errors : Nat
  appended : List String
  uploads : List String
deriving DecidableEq, Repr

/-- The item loop of `process_feed` over the new items, with `i` the index
of the first item (the environments `envF`, `tsF` are indexed by the item's
position in `new_items`). -/
def runItems (minLen : Nat) (folder : String) (envF : Nat → ItemEnv)
    (tsF : Nat → Nat) : List Item → Nat → LoopOut
  | [], _ => ⟨0, 0, [], []⟩
  | it :: rest, i =>
    let r := processItem minLen folder it (envF i) (tsF i)
    let out := runItems minLen folder envF tsF rest (i + 1)
    match r.1 with
    | .marked =>
        ⟨out.processed + 1, out.errors, itemIdOf it (tsF i) :: out.appended,
          r.2 ++ out.uploads⟩
    | .skipped => ⟨out.processed, out.errors, out.appended, r.2 ++ out.uploads⟩
    | .errored =>
        ⟨out.processed, out.errors + 1, out.appended, r.2 ++ out.uploads⟩

/-- Environment for one call of `process_feed` on one feed:
the fetch/parse result (`none` when `fetch_rss`/`parse_rss` raises after
the fetch retries), the per-item call environments and observed epoch
seconds indexed by position in `new_items`, and whether the final
`gcs.write_json` of `processed_ids.json` succeeds. -/
structure FeedEnv where
  fetchParse : Option (List Item)
  itemEnv : Nat → ItemEnv
  ts : Nat → Nat
  saveOk : Bool

/-- Observable outcome of `process_feed`: `ok = false` iff the call raised
(feed-level failure re-raised at main.py line 198); `persisted` is the
content written to `processed_ids.json` when that write happened;
`saves` counts the writes to `processed_ids.json`. -/
structure FeedOutcome where
  ok : Bool
  processed : Nat
  errors : Nat
  appended : List String
  persisted : Option (List String)
  saves : Nat
  uploads : List String

/-- `process_feed` (main.py lines 72-198) for one feed whose loaded
`processed_ids.json` id list is `loaded`. -/
def processFeed (minLen : Nat) (folder : String) (loaded : List String)
    (env : FeedEnv) : FeedOutcome :=
  match env.fetchParse with
  | none => ⟨false, 0, 0, [], none, 0, []⟩
  | some items =>
    let newItems := getNewItems items loaded
    if newItems.isEmpty then ⟨true, 0, 0, [], none, 0, []⟩ else
    let out := runItems minLen folder env.itemEnv env.ts newItems 0
    if out.appended.isEmpty then
      ⟨true, out.processed, out.errors, out.appended, none, 0, out.uploads⟩
    else if env.saveOk then
      ⟨true, out.processed, out.errors, out.appended,
        some (loaded ++ out.appended), 1, out.uploads⟩
    else
      ⟨false, out.processed, out.errors, out.appended, none, 0, out.uploads⟩

/-- `main` (main.py lines 201-229): iterate the configured feeds in order,
calling `process_feed` on each; the first feed-level exception propagates
to the outer handler, which exits with status 1.  Returns the exit status
and the number of feeds on which `process_feed` was invoked. -/
def mainRun (minLen : Nat) : List (String × List String × FeedEnv) → Nat × Nat
  | [] => (0, 0)
  | (folder, loaded, env) :: rest =>
    let o := processFeed minLen folder loaded env
    if o.ok then
      let r := mainRun minLen rest
      (r.1, r.2 + 1)
    else (1, 1)

/-!  `RAGIngester.ingest_to_rag` (rag_ingest.py): the submission POST, the
operation poll loop, and the tenacity retry wrapper
(`stop_after_attempt(5)`, retrying on every `Exception`). -/

/-- What one `GET` on the operation URL reports, per poll attempt
(1-based): non-200 poll response, operation not yet done, done with an
`error` payload, or done with imported/skipped counts. -/
inductive PollStatus where
  | httpFail
  | pending
  | doneErr
  | doneOk (imported skipped : Nat)
deriving DecidableEq, Repr

/-- Outcome of the poll loop (rag_ingest.py lines 158-217). -/
inductive PollOutcome where
  | success (imported skipped : Nat)
  | opError
  | pollHttpError
  | timeout
deriving DecidableEq, Repr

/-- The poll loop: `while poll_attempt < max_poll_attempts`, one status
check per iteration; a non-200 poll response or a terminal `error` payload
raises at once; terminal success breaks with the counts; otherwise sleep
and re-check; exhausting the attempts raises the timeout error.  Returns
the outcome and the number of status checks performed.  `attempt` is the
number of checks already done, `rem` the remaining allowance. -/
def pollLoop (status : Nat → PollStatus) : Nat → Nat → PollOutcome × Nat
  | _, 0 => (.timeout, 0)
  | attempt, rem + 1 =>
    match status (attempt + 1) with
    | .httpFail => (.pollHttpError, 1)
    | .doneErr => (.opError, 1)
    | .doneOk i s => (.success i s, 1)
    | .pending =>
      let r := pollLoop status (attempt + 1) rem
      (r.1, r.2 + 1)

/-- `max_poll_attempts = 120` (rag_ingest.py line 153). -/
def maxPollAttempts : Nat := 120

/-- Result of the import-submission POST: accepted with an operation name,
rejected with the concurrent-operation 400, another non-2xx status, or a
2xx body with no operation name. -/
inductive SubmitRes where
  | okOp
  | concurrent
  | httpErr
  | noOpName
deriving DecidableEq, Repr

/-- Environment for one invocation of the `ingest_to_rag` body. -/
structure IngestEnv where
  submit : SubmitRes
  status : Nat → PollStatus

/-- Result of one invocation of the `ingest_to_rag` body: returned
normally with the operation counts, or raised an exception (every failure
branch of the body raises, and the `except` clause re-raises). -/
inductive IngestResult where
  | ok (imported skipped : Nat)
  | exn
deriving DecidableEq, Repr

/-- One invocation of the `ingest_to_rag` body (rag_ingest.py
lines 71-222): any submission failure raises; an accepted submission
enters the poll loop, whose non-success outcomes all raise. -/
def ingestOnce (env : IngestEnv) : IngestResult :=
  match env.submit with
  | .concurrent => .exn
  | .httpErr => .exn
  | .noOpName => .exn
  | .okOp =>
    match pollLoop env.status 0 maxPollAttempts with
    | (.success i s, _) => .ok i s
    | _ => .exn

/-- `stop_after_attempt(5)` on the tenacity decorator of `ingest_to_rag`
(rag_ingest.py line 67). -/
def ingestAttempts : Nat := 5

/-- The tenacity wrapper around the `ingest_to_rag` body: invoke the body,
return its value on success, re-invoke on any exception while attempts
remain (`retry_if_exception_type((Exception,))`), and give up after
`stop_after_attempt` invocations.  `envs k` is the environment seen by the
(0-based) `k`-th invocation.  Returns the final result and the number of
invocations of the body — each of which issues one import-submission
POST. -/
def retryCalls (envs : Nat → IngestEnv) : Nat → Nat → IngestResult × Nat
  | _, 0 => (.exn, 0)
  | attempt, rem + 1 =>
    match ingestOnce (envs attempt) with
    | .ok i s => (.ok i s, 1)
    | .exn =>
      let r := retryCalls envs (attempt + 1) rem
      (r.1, r.2 + 1)

/-- `ingest_to_rag` with its retry decorator: up to 5 invocations of the
body. -/
def ingestToRag (envs : Nat → IngestEnv) : IngestResult × Nat :=
  retryCalls envs 0 ingestAttempts

/-!  `VectorSearchIngester.upsert_vector` (vector_search_ingest.py
lines 93-122). -/

/-- The per-item metadata envelope built in `process_feed`
(main.py lines 143-150). -/
structure ItemMetadata where
  title : String
  link : String
  pubDate : String
  feed : String
  item_id : String
  processed_at : String
deriving DecidableEq, Repr

/-- The datapoint dictionary `upsert_vector` constructs
(vector_search_ingest.py lines 107-110): exactly the keys
`datapoint_id` and `feature_vector`. -/
structure Datapoint where
  datapoint_id : String
  feature_vector : List Int
deriving DecidableEq, Repr

/-- `upsert_vector(vector, doc_id, metadata)`: the list of datapoints
delivered to `index.upsert_datapoints`.  The `metadata` argument is
received but never placed in the datapoint. -/
def upsert_vector (vector : List Int) (doc_id : String)
    (metadata : ItemMetadata) : List Datapoint :=
  [{ datapoint_id := doc_id, feature_vector := vector }]

/-!  Spec-side readings of the loop, and helper lemmas. -/

/-- The ids, in order, of the new items whose per-item run reached the
`marked` end state (i.e. would be appended to `new_processed_ids`). -/
def markedIds (minLen : Nat) (folder : String) (envF : Nat → ItemEnv)
    (tsF : Nat → Nat) : List Item → Nat → List String
  | [], _ => []
  | it :: rest, i =>
    if (processItem minLen folder it (envF i) (tsF i)).1 = ItemResult.marked then
      itemIdOf it (tsF i) :: markedIds minLen folder envF tsF rest (i + 1)
    else
      markedIds minLen folder envF tsF rest (i + 1)

/-- Every downstream call for the item succeeded and its gates passed:
raw-XML save, a present link, HTML fetch and save, a cleaned text that is
non-empty and at least the configured minimum length once stripped, the
cleaned-text save, the corpus import, the embedding and the vector
upsert. -/
def fullSuccess (minLen : Nat) (it : Item) (e : ItemEnv) : Prop :=
  e.xmlSave = true ∧ it.link ≠ "" ∧ e.fetchHtml.isSome = true ∧
  e.htmlSave = true ∧
  (∃ t, e.clean = some t ∧ t ≠ "" ∧ minLen ≤ (pyStrip t).length) ∧
  e.textSave = true ∧ e.ragIngest = true ∧ e.embed.isSome = true ∧
  e.upsert = true

theorem marked_fullSuccess {minLen : Nat} {folder : String} {it : Item}
    {e : ItemEnv} {ts : Nat}
    (h : (processItem minLen folder it e ts).1 = ItemResult.marked) :
    fullSuccess minLen it e := by
  unfold processItem at h
  repeat' split at h
  all_goals simp_all [fullSuccess]

theorem runItems_appended (minLen : Nat) (folder : String)
    (envF : Nat → ItemEnv) (tsF : Nat → Nat) :
    ∀ (l : List Item) (i : Nat),
      (runItems minLen folder envF tsF l i).appended =
        markedIds minLen folder envF tsF l i := by
  intro l
  induction l with
  | nil => intro i; rfl
  | cons it rest ih =>
    intro i
    cases h : (processItem minLen folder it (envF i) (tsF i)).1 <;>
      simp [runItems, markedIds, h, ih]

theorem mem_markedIds {minLen : Nat} {folder : String} {envF : Nat → ItemEnv}
    {tsF : Nat → Nat} :
    ∀ {l : List Item} {i : Nat} {x : String},
      x ∈ markedIds minLen folder envF tsF l i ↔
        ∃ j, ∃ hj : j < l.length,
          (processItem minLen folder (l.get ⟨j, hj⟩) (envF (i + j))
              (tsF (i + j))).1 = ItemResult.marked ∧
            x = itemIdOf (l.get ⟨j, hj⟩) (tsF (i + j)) := by
  intro l
  induction l with
  | nil => intro i x; simp [markedIds]
  | cons it rest ih =>
    intro i x
    constructor
    · intro hx
      by_cases h : (processItem minLen folder it (envF i) (tsF i)).1 =
          ItemResult.marked
      · rw [markedIds, if_pos h] at hx
        rcases List.mem_cons.mp hx with h0 | htail
        · exact ⟨0, by simp, by simpa using h, by simpa using h0⟩
        · rcases ih.mp htail with ⟨j, hj, hm, he⟩
          refine ⟨j + 1, by simpa using hj, ?_, ?_⟩
          · simpa [Nat.add_assoc, Nat.add_comm 1 j] using hm
          · simpa [Nat.add_assoc, Nat.add_comm 1 j] using he
      · rw [markedIds, if_neg h] at hx
        rcases ih.mp hx with ⟨j, hj, hm, he⟩
        refine ⟨j + 1, by simpa using hj, ?_, ?_⟩
        · simpa [Nat.add_assoc, Nat.add_comm 1 j] using hm
        · simpa [Nat.add_assoc, Nat.add_comm 1 j] using he
    · rintro ⟨j, hj, hm, he⟩
      cases j with
      | zero =>
        simp only [List.get] at hm he
        rw [markedIds, if_pos (by simpa using hm)]
        exact List.mem_cons.mpr (Or.inl (by simpa using he))
      | succ j' =>
        have hj' : j' < rest.length := by simpa using hj
        have : x ∈ markedIds minLen folder envF tsF rest (i + 1) := by
          refine ih.mpr ⟨j', hj', ?_, ?_⟩
          · simpa [Nat.add_assoc, Nat.add_comm 1 j'] using hm
          · simpa [Nat.add_assoc, Nat.add_comm 1 j'] using he
        by_cases h : (processItem minLen folder it (envF i) (tsF i)).1 =
            ItemResult.marked
        · rw [markedIds, if_pos h]; exact List.mem_cons_of_mem _ this
        · rw [markedIds, if_neg h]; exact this

theorem runItems_uploads_mem {minLen : Nat} {folder : String}
    {envF : Nat → ItemEnv} {tsF : Nat → Nat} :
    ∀ {l : List Item} {i j : Nat} (hj : j < l.length) {x : String},
      x ∈ (processItem minLen folder (l.get ⟨j, hj⟩) (envF (i + j))
            (tsF (i + j))).2 →
        x ∈ (runItems minLen folder envF tsF l i).uploads := by
  intro l
  induction l with
  | nil => intro i j hj; simp at hj
  | cons it rest ih =>
    intro i j hj x hx
    cases j with
    | zero =>
      simp only [List.get] at hx
      cases h : (processItem minLen folder it (envF i) (tsF i)).1 <;>
        simp [runItems, h] <;>
        exact Or.inl (by simpa using hx)
    | succ j' =>
      have hj' : j' < rest.length := by simpa using hj
      have hx' : x ∈ (processItem minLen folder (rest.get ⟨j', hj'⟩)
          (envF ((i + 1) + j')) (tsF ((i + 1) + j'))).2 := by
        simpa [Nat.add_assoc, Nat.add_comm 1 j'] using hx
      have := ih hj' hx'
      cases h : (processItem minLen folder it (envF i) (tsF i)).1 <;>
        simp [runItems, h] <;> exact Or.inr this

theorem countP_range_shift (q : Nat → Bool) (i n : Nat) :
    (List.range (n + 1)).countP (fun j => q (i + j)) =
      (List.range n).countP (fun j => q ((i + 1) + j)) +
        (if q i then 1 else 0) := by
  rw [List.range_succ_eq_map, List.countP_cons, List.countP_map]
  have hc : ((fun j => q (i + j)) ∘ fun x => x + 1) =
      fun j => q ((i + 1) + j) := by
    funext a
    simp only [Function.comp]
    congr 1
    omega
  rw [hc]
  simp

theorem runItems_error_count (minLen : Nat) (folder : String)
    (envF : Nat → ItemEnv) (tsF : Nat → Nat) (p : Nat → Bool) :
    ∀ (l : List Item) (i : Nat),
      (∀ j (hj : j < l.length),
        (processItem minLen folder (l.get ⟨j, hj⟩) (envF (i + j))
            (tsF (i + j))).1 =
          (if p (i + j) then ItemResult.errored else ItemResult.marked)) →
      (runItems minLen folder envF tsF l i).errors =
          (List.range l.length).countP (fun j => p (i + j)) ∧
        (runItems minLen folder envF tsF l i).processed =
          (List.range l.length).countP (fun j => !p (i + j)) := by
  intro l
  induction l with
  | nil => intro i _; simp [runItems]
  | cons it rest ih =>
    intro i hsteps
    have h0 := hsteps 0 (by simp)
    simp only [List.get, Nat.add_zero] at h0
    have htail : ∀ j (hj : j < rest.length),
        (processItem minLen folder (rest.get ⟨j, hj⟩) (envF ((i + 1) + j))
            (tsF ((i + 1) + j))).1 =
          (if p ((i + 1) + j) then ItemResult.errored else ItemResult.marked) := by
      intro j hj
      have := hsteps (j + 1) (by simpa using hj)
      simpa [Nat.add_assoc, Nat.add_comm 1 j] using this
    have ihr := ih (i + 1) htail
    have e1 := countP_range_shift p i rest.length
    have e2 := countP_range_shift (fun j => !p j) i rest.length
    by_cases hp : p i
    · rw [if_pos hp] at h0
      simp only [runItems, h0, List.length_cons]
      rw [e1, e2, ihr.1, ihr.2]
      simp [hp]
    · rw [if_neg hp] at h0
      simp only [runItems, h0, List.length_cons]
      rw [e1, e2, ihr.1, ihr.2]
      simp [hp]

/-- How the poll loop reacts to the first non-pending status it sees. -/
def terminalOutcome : PollStatus → PollOutcome
  | .doneOk i s => .success i s
  | .doneErr => .opError
  | .httpFail => .pollHttpError
  | .pending => .timeout

theorem pollLoop_first_terminal (status : Nat → PollStatus) :
    ∀ (t attempt rem : Nat), t + 1 ≤ rem →
      (∀ j, attempt + 1 ≤ j → j ≤ attempt + t → status j = PollStatus.pending) →
      status (attempt + t + 1) ≠ PollStatus.pending →
      pollLoop status attempt rem =
        (terminalOutcome (status (attempt + t + 1)), t + 1) := by
  intro t
  induction t with
  | zero =>
    intro attempt rem hrem hpre hterm
    obtain ⟨r, rfl⟩ : ∃ r, rem = r + 1 := ⟨rem - 1, by omega⟩
    rw [pollLoop]
    cases hs : status (attempt + 1) with
    | pending => exact absurd (by simpa using hs) (by simpa using hterm)
    | httpFail => simp [terminalOutcome, hs]
    | doneErr => simp [terminalOutcome, hs]
    | doneOk i s => simp [terminalOutcome, hs]
  | succ t ih =>
    intro attempt rem hrem hpre hterm
    obtain ⟨r, rfl⟩ : ∃ r, rem = r + 1 := ⟨rem - 1, by omega⟩
    have hp1 : status (attempt + 1) = PollStatus.pending :=
      hpre (attempt + 1) (le_refl _) (by omega)
    rw [pollLoop, hp1]
    have hx := ih (attempt + 1) r (by omega)
      (fun j h1 h2 => hpre j (by omega) (by omega))
      (by
        have : attempt + 1 + t + 1 = attempt + (t + 1) + 1 := by omega
        rw [this]
        exact hterm)
    rw [hx]
    have : attempt + 1 + t + 1 = attempt + (t + 1) + 1 := by omega
    rw [this]

theorem pollLoop_all_pending (status : Nat → PollStatus)
    (h : ∀ j, status j = PollStatus.pending) :
    ∀ (rem attempt : Nat),
      pollLoop status attempt rem = (PollOutcome.timeout, rem) := by
  intro rem
  induction rem with
  | zero => intro attempt; rfl
  | succ r ih =>
    intro attempt
    rw [pollLoop, h (attempt + 1), ih (attempt + 1)]

theorem retryCalls_all_exn (envs : Nat → IngestEnv)
    (h : ∀ k, ingestOnce (envs k) = IngestResult.exn) :
    ∀ (rem attempt : Nat),
      retryCalls envs attempt rem = (IngestResult.exn, rem) := by
  intro rem
  induction rem with
  | zero => intro attempt; rfl
  | succ r ih =>
    intro attempt
    rw [retryCalls, h attempt, ih (attempt + 1)]

theorem mem_getNewItems {it : Item} {items : List Item}
    {processed : List String} :
    it ∈ getNewItems items processed ↔
      it ∈ items ∧ rawId it ≠ "" ∧ rawId it ∉ processed := by
  simp [getNewItems, List.mem_filter, and_assoc]

theorem processFeed_empty (minLen : Nat) (folder : String)
    (loaded : List String) {env : FeedEnv} {items : List Item}
    (hf : env.fetchParse = some items)
    (hni : (getNewItems items loaded).isEmpty = true) :
    processFeed minLen folder loaded env = ⟨true, 0, 0, [], none, 0, []⟩ := by
  unfold processFeed
  rw [hf]
  simp [hni]

theorem processFeed_out (minLen : Nat) (folder : String)
    (loaded : List String) {env : FeedEnv} {items : List Item}
    (hf : env.fetchParse = some items)
    (hni : (getNewItems items loaded).isEmpty = false) :
    processFeed minLen folder loaded env =
      (let out := runItems minLen folder env.itemEnv env.ts
          (getNewItems items loaded) 0
       ⟨out.appended.isEmpty || env.saveOk, out.processed, out.errors,
        out.appended,
        if out.appended.isEmpty || !env.saveOk then none
          else some (loaded ++ out.appended),
        if out.appended.isEmpty || !env.saveOk then 0 else 1,
        out.uploads⟩) := by
  unfold processFeed
  rw [hf]
  cases hb : (runItems minLen folder env.itemEnv env.ts
      (getNewItems items loaded) 0).appended.isEmpty <;>
    cases hs : env.saveOk <;> simp [hni, hb, hs]

theorem skipped_has_xml {minLen : Nat} {folder : String} {it : Item}
    {e : ItemEnv} {ts : Nat}
    (h : (processItem minLen folder it e ts).1 = ItemResult.skipped) :
    (folder ++ "/raw_xml/" ++ itemIdOf it ts ++ ".xml") ∈
      (processItem minLen folder it e ts).2 := by
  simp only [processItem] at h ⊢
  repeat' split at h
  all_goals simp_all

/-!  Concrete fixtures used to evaluate the model. -/

/-- An item environment in which every downstream call succeeds and the
cleaned text passes the length gate for any small minimum. -/
def allOkEnv : ItemEnv :=
  { xmlSave := true, fetchHtml := some "<html>", htmlSave := true,
    clean := some "enough cleaned text", textSave := true, ragIngest := true,
    embed := some [1, 2], upsert := true }

/-- A typical blog item whose identity is a URL (so it contains characters
outside the sanitizer's kept class). -/
def urlItem : Item :=
  { title := "t", link := "https://e.com/a", guid := "https://e.com/a",
    pubDate := "", description := "" }

/-- A feed run in which the fetch parses to the single `urlItem` and every
downstream call succeeds, including the final save. -/
def urlFeedEnv : FeedEnv :=
  { fetchParse := some [urlItem], itemEnv := fun _ => allOkEnv,
    ts := fun _ => 7, saveOk := true }

/-- A feed whose fetch/parse raises (feed-level failure). -/
def fetchFailEnv : FeedEnv :=
  { fetchParse := none, itemEnv := fun _ => allOkEnv,
    ts := fun _ => 7, saveOk := true }

/-- Same successful single-item feed run, but the final
`gcs.write_json` of `processed_ids.json` raises after its retries. -/
def saveFailEnv : FeedEnv :=
  { fetchParse := some [urlItem], itemEnv := fun _ => allOkEnv,
    ts := fun _ => 7, saveOk := false }

/-- An ingest invocation whose submission is accepted and whose operation
reports a terminal error on the very first poll. -/
def opErrEnv : IngestEnv :=
  { submit := SubmitRes.okOp, status := fun _ => PollStatus.doneErr }

/-- Two distinct metadata envelopes for the same document. -/
def mdA : ItemMetadata :=
  { title := "Post A", link := "https://e.com/a", pubDate := "2025-01-01",
    feed := "nvidia", item_id := "doc1", processed_at := "2025-01-02T00:00:00Z" }

/-- Second metadata envelope, differing from `mdA` in every text field. -/
def mdB : ItemMetadata :=
  { title := "Post B", link := "https://e.com/b", pubDate := "2025-02-01",
    feed := "other", item_id := "doc1", processed_at := "2025-02-02T00:00:00Z" }

/-!  Claims. -/

/-- C1.  The claim says an unchanged feed is fully suppressed by the
ProcessedSet of the previous run.  The code violates this: `process_feed`
appends the **sanitized** `item_id` to `processed_ids.json`, while
`get_new_items` filters by the **raw** guid/link.  For an identity
containing any character outside `[\w\-.]` (every URL does), the stored id
differs from the raw identity, so the second run over the unchanged feed
finds the item in the delta again and reprocesses it: the first run
persists `https___e.com_a`, yet the second run's delta still contains the
item and the second run processes 1 item, not 0. -/
theorem c1_unchanged_feed_reprocessed :
    (processFeed 5 "nvidia" [] urlFeedEnv).persisted =
        some ["https___e.com_a"] ∧
      rawId urlItem ∉ ["https___e.com_a"] ∧
      getNewItems [urlItem] ["https___e.com_a"] = [urlItem] ∧
      (processFeed 5 "nvidia" ["https___e.com_a"] urlFeedEnv).processed = 1 := by
  refine ⟨by decide, by decide, by decide, by decide⟩

/-- C2 counterexample.  With two configured feeds where the first one's
fetch raises, `main` invokes `process_feed` on only 1 of the 2 feeds: the
exception propagates out of the feed loop to the outer handler, which
exits 1 without attempting the second feed — refuting "the failure never
prevents attempting every subsequent feed". -/
theorem c2_first_feed_failure_stops_run :
    mainRun 5 [("f1", [], fetchFailEnv), ("f2", [], urlFeedEnv)] = (1, 1) ∧
      [("f1", ([] : List String), fetchFailEnv),
        ("f2", ([] : List String), urlFeedEnv)].length = 2 := by
  exact ⟨by decide, by decide⟩

/-- C2 amended.  A feed-level failure aborts the whole run: `main` has no
per-feed handler, so the first feed whose `process_feed` raises ends the
loop — the run exits with status 1 and the subsequent feeds are never
attempted.  If the first failing feed is preceded by `pre.length`
successful feeds, exactly `pre.length + 1` feeds are attempted. -/
theorem c2_feed_failure_aborts_subsequent_feeds
    (minLen : Nat) (pre post : List (String × List String × FeedEnv))
    (folder : String) (loaded : List String) (env : FeedEnv)
    (hpre : ∀ f ∈ pre, (processFeed minLen f.1 f.2.1 f.2.2).ok = true)
    (hfail : (processFeed minLen folder loaded env).ok = false) :
    mainRun minLen (pre ++ (folder, loaded, env) :: post) =
      (1, pre.length + 1) := by
  induction pre with
  | nil =>
    simp only [List.nil_append, mainRun, hfail]
    rfl
  | cons f rest ih =>
    have ihr := ih (fun g hg => hpre g (List.mem_cons_of_mem _ hg))
    obtain ⟨folder', loaded', env'⟩ := f
    have hf : (processFeed minLen folder' loaded' env').ok = true :=
      hpre _ (List.mem_cons_self _ _)
    simp only [List.cons_append, mainRun, hf, if_true, List.append_eq, ihr,
      List.length_cons]

/-- C2 amended, witness. -/
theorem c2_feed_failure_aborts_witness :
    mainRun 5 ([("f0", [], urlFeedEnv)] ++ ("f1", [], fetchFailEnv) ::
        [("f2", [], urlFeedEnv)]) = (1, 2) := by
  have h := c2_feed_failure_aborts_subsequent_feeds 5
    [("f0", [], urlFeedEnv)] [("f2", [], urlFeedEnv)] "f1" [] fetchFailEnv
    (by intro f hf; simp only [List.mem_singleton] at hf; subst hf; decide)
    (by decide)
  simpa using h

/-- C3 counterexample.  When the operation reports a terminal error on the
first poll, the `ingest_to_rag` body raises — but its tenacity decorator
(`stop_after_attempt(5)`, retry on every `Exception`) re-invokes the whole
body, re-submitting the import each time: the import endpoint is hit 5
times, not once, refuting "the import is not retried or re-submitted any
further at this layer". -/
theorem c3_terminal_error_resubmits_import :
    ingestToRag (fun _ => opErrEnv) = (IngestResult.exn, 5) ∧ (5 : Nat) ≠ 1 := by
  exact ⟨by decide, by decide⟩

/-- C3 amended.  Within one invocation of the body, a terminal operation
error observed on poll attempt `t + 1` stops the poll loop at once (exactly
`t + 1` status checks, outcome `opError`, no further polling) — but the
body raises, and the function-level retry decorator re-invokes the whole
body, so with this persistently failing operation the import is submitted
`ingestAttempts = 5` times in total. -/
theorem c3_opError_immediate_but_body_retried
    (status : Nat → PollStatus) (t : Nat)
    (ht : t + 1 ≤ maxPollAttempts)
    (hpre : ∀ j, 1 ≤ j → j ≤ t → status j = PollStatus.pending)
    (herr : status (t + 1) = PollStatus.doneErr) :
    pollLoop status 0 maxPollAttempts = (PollOutcome.opError, t + 1) ∧
      ingestToRag (fun _ => { submit := SubmitRes.okOp, status := status }) =
        (IngestResult.exn, ingestAttempts) := by
  have hterm : status (0 + t + 1) ≠ PollStatus.pending := by
    simp [Nat.zero_add, herr]
  have hp := pollLoop_first_terminal status t 0 maxPollAttempts ht
    (fun j h1 h2 => hpre j h1 (by omega)) hterm
  have hloop : pollLoop status 0 maxPollAttempts =
      (PollOutcome.opError, t + 1) := by
    rw [hp]
    simp [herr, terminalOutcome]
  refine ⟨hloop, ?_⟩
  have honce : ingestOnce { submit := SubmitRes.okOp, status := status } =
      IngestResult.exn := by
    unfold ingestOnce
    rw [hloop]
  exact retryCalls_all_exn _ (fun _ => honce) ingestAttempts 0

/-- C3 amended, witness: terminal error on the very first poll. -/
theorem c3_opError_witness :
    pollLoop (fun _ => PollStatus.doneErr) 0 maxPollAttempts =
        (PollOutcome.opError, 1) ∧
      ingestToRag (fun _ =>
          { submit := SubmitRes.okOp, status := fun _ => PollStatus.doneErr }) =
        (IngestResult.exn, ingestAttempts) :=
  c3_opError_immediate_but_body_retried (fun _ => PollStatus.doneErr) 0
    (by decide) (fun j h1 h2 => by omega) rfl

/-- C5.  The claim (and the function's own docstring) says the metadata
envelope is delivered to the vector index together with the id and the
vector.  The code receives `metadata` but builds the datapoint from
`doc_id` and `vector` only: two calls differing solely in their metadata
deliver identical payloads, and the delivered datapoint holds exactly the
`datapoint_id` and `feature_vector` keys. -/
theorem c5_upsert_drops_metadata :
    upsert_vector [1, 2, 3] "doc1" mdA = upsert_vector [1, 2, 3] "doc1" mdB ∧
      mdA ≠ mdB ∧
      upsert_vector [1, 2, 3] "doc1" mdA =
        [{ datapoint_id := "doc1", feature_vector := [1, 2, 3] }] := by
  exact ⟨rfl, by decide, rfl⟩

/-- C4 counterexample.  With one item fully ingested and the final
`write_json` of `processed_ids.json` raising after its retries, the
exception propagates out of `process_feed` (the `except` at main.py line
196 logs and re-raises): the feed's pass is reported failed and `main`
exits 1 — refuting "the run still proceeds to completion with only a
logged error" and "the save failure does not escalate into a feed-level or
run-level failure". -/
theorem c4_save_failure_escalates :
    (processFeed 5 "nvidia" [] saveFailEnv).processed = 1 ∧
      (processFeed 5 "nvidia" [] saveFailEnv).ok = false ∧
      mainRun 5 [("nvidia", [], saveFailEnv)] = (1, 1) := by
  exact ⟨by decide, by decide, by decide⟩

/-- C4 amended.  If retries exhaust during the final idempotency-set save,
the exception escalates: the feed's pass is reported as a feed-level
failure and the run exits non-zero.  The already-ingested items are indeed
not rolled back — the per-item effects (processed and error counts,
appended ids, artifact uploads) are exactly those of the run in which the
save succeeds; only the persistence of the id list is lost. -/
theorem c4_save_failure_feed_fails (minLen : Nat) (folder : String)
    (loaded : List String) (env : FeedEnv) (items : List Item)
    (hf : env.fetchParse = some items)
    (hsave : env.saveOk = false)
    (hne : (runItems minLen folder env.itemEnv env.ts
        (getNewItems items loaded) 0).appended ≠ []) :
    (processFeed minLen folder loaded env).ok = false ∧
      (processFeed minLen folder loaded env).persisted = none ∧
      (processFeed minLen folder loaded env).processed =
        (processFeed minLen folder loaded
          { env with saveOk := true }).processed ∧
      (processFeed minLen folder loaded env).errors =
        (processFeed minLen folder loaded { env with saveOk := true }).errors ∧
      (processFeed minLen folder loaded env).appended =
        (processFeed minLen folder loaded
          { env with saveOk := true }).appended ∧
      (processFeed minLen folder loaded env).uploads =
        (processFeed minLen folder loaded
          { env with saveOk := true }).uploads ∧
      mainRun minLen [(folder, loaded, env)] = (1, 1) := by
  have hni : (getNewItems items loaded).isEmpty = false := by
    cases hb : (getNewItems items loaded).isEmpty
    · rfl
    · exfalso
      apply hne
      rw [List.isEmpty_iff.mp hb]
      rfl
  have hf' : ({ env with saveOk := true } : FeedEnv).fetchParse = some items :=
    hf
  have h1 := processFeed_out minLen folder loaded hf hni
  have h2 := processFeed_out minLen folder loaded hf' hni
  have hae : (runItems minLen folder env.itemEnv env.ts
      (getNewItems items loaded) 0).appended.isEmpty = false := by
    cases hb : (runItems minLen folder env.itemEnv env.ts
        (getNewItems items loaded) 0).appended.isEmpty
    · rfl
    · exact absurd (List.isEmpty_iff.mp hb) hne
  simp only at h2
  rw [h1, h2]
  simp [mainRun, h1, hae, hsave]

/-- C4 amended, witness. -/
theorem c4_save_failure_witness :
    (processFeed 5 "nvidia" [] saveFailEnv).ok = false ∧
      (processFeed 5 "nvidia" [] saveFailEnv).persisted = none ∧
      mainRun 5 [("nvidia", [], saveFailEnv)] = (1, 1) := by
  have h := c4_save_failure_feed_fails 5 "nvidia" [] saveFailEnv [urlItem]
    rfl rfl (by decide)
  exact ⟨h.1, h.2.1, h.2.2.2.2.2.2⟩

/-- C6.  The ProcessedSet bookkeeping of `process_feed`: the appended ids
are exactly the ids of the new items whose per-item run reached the marked
end state, in order; every appended id belongs to an item for which every
downstream call succeeded (raw-XML save, link present, HTML fetch and
save, cleaned text over the threshold, text save, corpus import,
embedding, vector upsert); `processed_ids.json` is written at most once
per pass; and when it is written it contains exactly the loaded list
extended with the appended ids. -/
theorem c6_processed_set_invariant (minLen : Nat) (folder : String)
    (loaded : List String) (env : FeedEnv) (items : List Item)
    (hf : env.fetchParse = some items)
    (hsave : env.saveOk = true) :
    (processFeed minLen folder loaded env).appended =
        markedIds minLen folder env.itemEnv env.ts
          (getNewItems items loaded) 0 ∧
      (∀ id ∈ (processFeed minLen folder loaded env).appended,
        ∃ j, ∃ hj : j < (getNewItems items loaded).length,
          fullSuccess minLen ((getNewItems items loaded).get ⟨j, hj⟩)
              (env.itemEnv j) ∧
            id = itemIdOf ((getNewItems items loaded).get ⟨j, hj⟩)
              (env.ts j)) ∧
      (processFeed minLen folder loaded env).saves ≤ 1 ∧
      (processFeed minLen folder loaded env).persisted =
        (if (processFeed minLen folder loaded env).appended = [] then none
          else some (loaded ++ (processFeed minLen folder loaded env).appended)) := by
  cases hni : (getNewItems items loaded).isEmpty with
  | true =>
    have he := processFeed_empty minLen folder loaded hf hni
    have hmt : getNewItems items loaded = [] := List.isEmpty_iff.mp hni
    rw [he, hmt]
    refine ⟨rfl, ?_, by simp, by simp⟩
    intro id hid
    simp at hid
  | false =>
    have h1 := processFeed_out minLen folder loaded hf hni
    simp only at h1
    rw [h1]
    simp only [hsave, Bool.not_true, Bool.or_false]
    refine ⟨runItems_appended minLen folder env.itemEnv env.ts _ 0, ?_, ?_, ?_⟩
    · intro id hid
      rw [runItems_appended] at hid
      rcases mem_markedIds.mp hid with ⟨j, hj, hm, he⟩
      rw [Nat.zero_add] at hm he
      exact ⟨j, hj, marked_fullSuccess hm, he⟩
    · cases hb : (runItems minLen folder env.itemEnv env.ts
          (getNewItems items loaded) 0).appended.isEmpty <;> simp
    · cases hb : (runItems minLen folder env.itemEnv env.ts
          (getNewItems items loaded) 0).appended.isEmpty with
      | true => simp [hb, List.isEmpty_iff.mp hb]
      | false =>
        have : (runItems minLen folder env.itemEnv env.ts
            (getNewItems items loaded) 0).appended ≠ [] := by
          intro hc
          rw [hc] at hb
          simp at hb
        simp [hb, this]

/-- C6, witness. -/
theorem c6_processed_set_witness :
    (processFeed 5 "nvidia" [] urlFeedEnv).saves ≤ 1 ∧
      (processFeed 5 "nvidia" [] urlFeedEnv).persisted =
        (if (processFeed 5 "nvidia" [] urlFeedEnv).appended = [] then none
          else some ([] ++ (processFeed 5 "nvidia" [] urlFeedEnv).appended)) := by
  have h := c6_processed_set_invariant 5 "nvidia" [] urlFeedEnv [urlItem]
    rfl rfl
  exact ⟨h.2.2.1, h.2.2.2⟩

/-- C7.  Per-item isolation in `process_feed`: if, among the new items,
exactly those at the indices where `raises` holds raise an exception
during some step and every other item runs every step successfully, then
the reported error count equals the number of raising items, the processed
count equals the number of non-raising items, each non-raising item's id
is appended to the ProcessedSet, and the feed's pass completes without a
feed-level failure. -/
theorem c7_partial_failure_isolation (minLen : Nat) (folder : String)
    (loaded : List String) (env : FeedEnv) (items : List Item)
    (raises : Nat → Bool)
    (hf : env.fetchParse = some items)
    (hsave : env.saveOk = true)
    (hsteps : ∀ j (hj : j < (getNewItems items loaded).length),
      (processItem minLen folder ((getNewItems items loaded).get ⟨j, hj⟩)
          (env.itemEnv j) (env.ts j)).1 =
        (if raises j then ItemResult.errored else ItemResult.marked)) :
    (processFeed minLen folder loaded env).errors =
        (List.range (getNewItems items loaded).length).countP
          (fun j => raises j) ∧
      (processFeed minLen folder loaded env).processed =
        (List.range (getNewItems items loaded).length).countP
          (fun j => !raises j) ∧
      (processFeed minLen folder loaded env).ok = true ∧
      (∀ j (hj : j < (getNewItems items loaded).length), raises j = false →
        itemIdOf ((getNewItems items loaded).get ⟨j, hj⟩) (env.ts j) ∈
          (processFeed minLen folder loaded env).appended) := by
  cases hni : (getNewItems items loaded).isEmpty with
  | true =>
    have he := processFeed_empty minLen folder loaded hf hni
    have hmt : getNewItems items loaded = [] := List.isEmpty_iff.mp hni
    rw [he, hmt]
    refine ⟨by simp, by simp, rfl, ?_⟩
    intro j hj
    simp at hj
  | false =>
    have h1 := processFeed_out minLen folder loaded hf hni
    simp only at h1
    have hsteps' : ∀ j (hj : j < (getNewItems items loaded).length),
        (processItem minLen folder ((getNewItems items loaded).get ⟨j, hj⟩)
            (env.itemEnv (0 + j)) (env.ts (0 + j))).1 =
          (if raises (0 + j) then ItemResult.errored else ItemResult.marked) := by
      intro j hj
      rw [Nat.zero_add]
      exact hsteps j hj
    have hcount := runItems_error_count minLen folder env.itemEnv env.ts
      raises (getNewItems items loaded) 0 hsteps'
    rw [h1]
    simp only [hsave, Bool.or_true]
    refine ⟨?_, ?_, by trivial, ?_⟩
    · rw [hcount.1]
      apply List.countP_congr
      intro a _
      rw [Nat.zero_add]
    · rw [hcount.2]
      apply List.countP_congr
      intro a _
      rw [Nat.zero_add]
    · intro j hj hnr
      rw [runItems_appended]
      refine mem_markedIds.mpr ⟨j, hj, ?_, ?_⟩
      · rw [Nat.zero_add]
        rw [hsteps j hj, hnr]
        rfl
      · rw [Nat.zero_add]

/-- Second item of the two-item witness feed. -/
def itemB : Item :=
  { title := "u", link := "https://e.com/b", guid := "https://e.com/b",
    pubDate := "", description := "" }

/-- Two-item feed run in which the second item's HTML fetch raises. -/
def twoItemEnv : FeedEnv :=
  { fetchParse := some [urlItem, itemB],
    itemEnv := fun i => if i = 1 then
        { allOkEnv with fetchHtml := none } else allOkEnv,
    ts := fun _ => 7, saveOk := true }

/-- C7, witness: two items, the second raising at the HTML fetch. -/
theorem c7_partial_failure_witness :
    (processFeed 5 "nvidia" [] twoItemEnv).errors =
      (List.range 2).countP (fun j => decide (j = 1)) := by
  have h := c7_partial_failure_isolation 5 "nvidia" [] twoItemEnv
    [urlItem, itemB] (fun j => decide (j = 1)) rfl rfl
    (by
      intro j hj
      match j with
      | 0 =>
        have hg : (getNewItems [urlItem, itemB] ([] : List String)).get
            ⟨0, hj⟩ = urlItem := rfl
        rw [hg]
        decide
      | 1 =>
        have hg : (getNewItems [urlItem, itemB] ([] : List String)).get
            ⟨1, hj⟩ = itemB := rfl
        rw [hg]
        decide
      | j + 2 =>
        exfalso
        have hl : (getNewItems [urlItem, itemB] ([] : List String)).length = 2 := by
          decide
        omega)
  exact h.1

/-- C8.  Poller termination: if the operation first reports terminal
success on poll attempt `k ≤ 120` (all earlier polls pending), the loop
performs exactly `k` status checks and returns the counts; if the
operation never leaves the pending state, the loop performs exactly
`maxPollAttempts = 120` checks and ends in the timeout error. -/
theorem c8_poller_termination (status : Nat → PollStatus) (k i s : Nat) :
    (1 ≤ k → k ≤ maxPollAttempts →
      (∀ j, 1 ≤ j → j < k → status j = PollStatus.pending) →
      status k = PollStatus.doneOk i s →
      pollLoop status 0 maxPollAttempts = (PollOutcome.success i s, k)) ∧
      ((∀ j, status j = PollStatus.pending) →
        pollLoop status 0 maxPollAttempts =
          (PollOutcome.timeout, maxPollAttempts)) := by
  constructor
  · intro h1 h2 hpre hk
    obtain ⟨t, rfl⟩ : ∃ t, k = t + 1 := ⟨k - 1, by omega⟩
    have hterm : status (0 + t + 1) ≠ PollStatus.pending := by
      simp [Nat.zero_add, hk]
    have hp := pollLoop_first_terminal status t 0 maxPollAttempts h2
      (fun j hj1 hj2 => hpre j hj1 (by omega)) hterm
    rw [hp]
    simp [Nat.zero_add, hk, terminalOutcome]
  · intro hall
    exact pollLoop_all_pending status hall maxPollAttempts 0

/-- Status source of the spec's poller scenario: terminal success on the
third poll, pending before (and irrelevant after). -/
def succAt3 : Nat → PollStatus :=
  fun j => if j = 3 then PollStatus.doneOk 1 0 else PollStatus.pending

/-- C8, witness: success on attempt 3 gives exactly 3 checks; a source
that never terminates gives exactly 120 checks and the timeout error. -/
theorem c8_poller_witness :
    pollLoop succAt3 0 maxPollAttempts = (PollOutcome.success 1 0, 3) ∧
      pollLoop (fun _ => PollStatus.pending) 0 maxPollAttempts =
        (PollOutcome.timeout, maxPollAttempts) := by
  constructor
  · exact (c8_poller_termination succAt3 3 1 0).1 (by omega) (by decide)
      (by intro j h1 h2; interval_cases j <;> rfl) rfl
  · exact (c8_poller_termination (fun _ => PollStatus.pending) 1 0 0).2
      (fun _ => rfl)

/-- C9.  ItemId normalization: for a raw identity on which the sanitizer
does not collapse (non-empty input, sanitized form neither empty nor a
lone underscore), the generated id is the sanitized string — independent
of the observed timestamp, so two computations from the same string agree
— with non-word characters replaced and the result truncated to at most
200 characters; for an empty or degenerate identity the id is the
timestamp fallback, which is never empty. -/
theorem c9_itemId_normalization (raw : String) (ts1 ts2 : Nat) :
    ((raw ≠ "" ∧ sanitizeId raw ≠ "" ∧ sanitizeId raw ≠ "_") →
      (itemIdFromRaw raw ts1 = itemIdFromRaw raw ts2 ∧
        itemIdFromRaw raw ts1 = sanitizeId raw ∧
        (itemIdFromRaw raw ts1).length ≤ 200)) ∧
      ((raw = "" ∨ sanitizeId raw = "" ∨ sanitizeId raw = "_") →
        (itemIdFromRaw raw ts1 = fallbackId ts1 ∧
          itemIdFromRaw raw ts1 ≠ "")) := by
  have hfb : ∀ ts : Nat, fallbackId ts ≠ "" := by
    intro ts hc
    have h0 : (fallbackId ts).length = 0 := by rw [hc]; rfl
    have h5 : (fallbackId ts).length = 5 + (toString ts).length := by
      show ("item_".data ++ (toString ts).data).length =
        5 + (toString ts).length
      rw [List.length_append]
      rfl
    omega
  have hlen : (sanitizeId raw).length ≤ 200 := by
    show ((raw.data.map (fun c => if keepChar c then c else '_')).take
        200).length ≤ 200
    rw [List.length_take]
    omega
  constructor
  · rintro ⟨h1, h2, h3⟩
    have hid : ∀ ts : Nat, itemIdFromRaw raw ts = sanitizeId raw := by
      intro ts
      unfold itemIdFromRaw
      rw [if_pos h1, if_neg]
      rintro (hc | hc)
      · exact h2 hc
      · exact h3 hc
    refine ⟨by rw [hid, hid], hid ts1, ?_⟩
    rw [hid ts1]
    exact hlen
  · intro h
    have hid : itemIdFromRaw raw ts1 = fallbackId ts1 := by
      rcases h with h | h
      · unfold itemIdFromRaw
        rw [if_neg (by simpa using h)]
      · unfold itemIdFromRaw
        by_cases hr : raw = ""
        · rw [if_neg (by simpa using hr)]
        · rw [if_pos hr, if_pos h]
    exact ⟨hid, by rw [hid]; exact hfb ts1⟩

/-- C9, witness: a URL-like identity normalizes timestamp-independently;
the empty identity gets a non-empty fallback. -/
theorem c9_itemId_witness :
    itemIdFromRaw "a:b" 1 = itemIdFromRaw "a:b" 2 ∧
      itemIdFromRaw "" 1 ≠ "" := by
  refine ⟨((c9_itemId_normalization "a:b" 1 2).1
      ⟨by decide, by decide, by decide⟩).1, ?_⟩
  exact ((c9_itemId_normalization "" 1 2).2 (Or.inl rfl)).2

/-- C10.  An item abandoned by a skip (missing link, or cleaned text under
the threshold) leaves its raw-XML artifact in the upload trace (the XML
save precedes both checks), while its id is never appended on its own
behalf — every appended id belongs to an item whose run reached the marked
state — and since its raw identity was not in the loaded set, it passes
the `get_new_items` filter again against the persisted set of this run
(provided no other item's appended id coincides with its raw identity):
the item re-enters the delta of the next run over an unchanged feed. -/
theorem c10_abandoned_item_artifacts (minLen : Nat) (folder : String)
    (loaded : List String) (env : FeedEnv) (items : List Item) (j : Nat)
    (hf : env.fetchParse = some items)
    (hj : j < (getNewItems items loaded).length)
    (hskip : (processItem minLen folder
        ((getNewItems items loaded).get ⟨j, hj⟩)
        (env.itemEnv j) (env.ts j)).1 = ItemResult.skipped) :
    (folder ++ "/raw_xml/" ++
        itemIdOf ((getNewItems items loaded).get ⟨j, hj⟩) (env.ts j) ++
          ".xml") ∈ (processFeed minLen folder loaded env).uploads ∧
      (∀ id ∈ (processFeed minLen folder loaded env).appended,
        ∃ k, ∃ hk : k < (getNewItems items loaded).length,
          (processItem minLen folder ((getNewItems items loaded).get ⟨k, hk⟩)
              (env.itemEnv k) (env.ts k)).1 = ItemResult.marked ∧
            id = itemIdOf ((getNewItems items loaded).get ⟨k, hk⟩)
              (env.ts k)) ∧
      rawId ((getNewItems items loaded).get ⟨j, hj⟩) ∉ loaded ∧
      rawId ((getNewItems items loaded).get ⟨j, hj⟩) ≠ "" ∧
      (rawId ((getNewItems items loaded).get ⟨j, hj⟩) ∉
          (processFeed minLen folder loaded env).appended →
        (getNewItems items loaded).get ⟨j, hj⟩ ∈
          getNewItems items
            (loaded ++ (processFeed minLen folder loaded env).appended)) := by
  have hni : (getNewItems items loaded).isEmpty = false := by
    cases hb : (getNewItems items loaded).isEmpty
    · rfl
    · exfalso
      have hmt := List.isEmpty_iff.mp hb
      rw [hmt] at hj
      simp at hj
  have h1 := processFeed_out minLen folder loaded hf hni
  simp only at h1
  rw [h1]
  have hmem : (getNewItems items loaded).get ⟨j, hj⟩ ∈
      getNewItems items loaded := List.get_mem _ _ _
  rcases mem_getNewItems.mp hmem with ⟨hin, hne, hnl⟩
  refine ⟨?_, ?_, hnl, hne, ?_⟩
  · have hx := skipped_has_xml hskip
    have hx' : (folder ++ "/raw_xml/" ++
        itemIdOf ((getNewItems items loaded).get ⟨j, hj⟩) (env.ts j) ++
          ".xml") ∈ (processItem minLen folder
            ((getNewItems items loaded).get ⟨j, hj⟩)
            (env.itemEnv (0 + j)) (env.ts (0 + j))).2 := by
      rw [Nat.zero_add]
      exact hx
    exact runItems_uploads_mem hj hx'
  · intro id hid
    rw [runItems_appended] at hid
    rcases mem_markedIds.mp hid with ⟨k, hk, hm, he⟩
    rw [Nat.zero_add] at hm he
    exact ⟨k, hk, hm, he⟩
  · intro hnotapp
    refine mem_getNewItems.mpr ⟨hin, hne, ?_⟩
    intro hc
    rcases List.mem_append.mp hc with h | h
    · exact hnl h
    · exact hnotapp h

/-- An item with no resolvable article link. -/
def noLinkItem : Item :=
  { title := "n", link := "", guid := "abc", pubDate := "", description := "" }

/-- A feed run whose single new item has no link (abandoned after the
raw-XML save). -/
def skipFeedEnv : FeedEnv :=
  { fetchParse := some [noLinkItem], itemEnv := fun _ => allOkEnv,
    ts := fun _ => 7, saveOk := true }

/-- C10, witness: the link-less item leaves a raw-XML upload and stays out
of the loaded set. -/
theorem c10_abandoned_item_witness :
    ("nvidia" ++ "/raw_xml/" ++ itemIdOf noLinkItem 7 ++ ".xml") ∈
        (processFeed 5 "nvidia" [] skipFeedEnv).uploads ∧
      rawId noLinkItem ∉ ([] : List String) := by
  have h := c10_abandoned_item_artifacts 5 "nvidia" [] skipFeedEnv
    [noLinkItem] 0 rfl (by decide) (by decide)
  exact ⟨h.1, h.2.2.1⟩

end NvidiaBlogMcp
